import Mathlib

/-!
Verification of the fasthtml-flowbite component library.

The development shallowly embeds the Python components
(`src/components/buttons.py`, `floating_form.py`, `navbar.py`,
`accordion.py`) in Lean.  Python keyword-attribute dictionaries are
embedded as ordered association lists with Python `dict` semantics:
assigning to an existing key updates the value in place (keeping its
position), assigning a fresh key appends it.  FastHTML omits attributes
whose value is `None`, so element attributes carry `Option String`
values and "the attribute is present" means the value is `some`.
-/

set_option maxRecDepth 100000

namespace Flowbite

/-- A markup node as produced by FastHTML's XT constructors: an element
with a tag, an ordered attribute list (in Python-kwarg order, values
`none` when the kwarg was `None`), and children; or a text leaf. -/
inductive Node where
  | elem (tag : String) (attrs : List (String × Option String)) (children : List Node)
  | text (s : String)

/-- Lookup in an ordered association list (Python `dict.get(k)` /
`d[k]` on the unique-key lists produced by `dict`s). -/
def getA {α : Type} : List (String × α) → String → Option α
  | [], _ => none
  | p :: t, k => if p.1 == k then some p.2 else getA t k

/-- Python `d[k] = v`: update the (unique) occurrence of `k` in place,
or append `(k, v)` when `k` is absent. -/
def setA {α : Type} : List (String × α) → String → α → List (String × α)
  | [], k, v => [(k, v)]
  | p :: t, k, v => if p.1 == k then (k, v) :: t else p :: setA t k v

/-- Python `d.update(n)` / `{**d, **n}`: set every entry of `n` into
`d`, left to right. -/
def updA {α : Type} (m n : List (String × α)) : List (String × α) :=
  n.foldl (fun acc p => setA acc p.1 p.2) m

/-- Remove the (unique) occurrence of a key. -/
def eraseA {α : Type} : List (String × α) → String → List (String × α)
  | [], _ => []
  | p :: t, k => if p.1 == k then t else p :: eraseA t k

/-- Python `d.pop(k, dflt)`: the value at `k` (or the default) together
with the dictionary with `k` removed. -/
def popA {α : Type} (m : List (String × α)) (k : String) (dflt : α) :
    α × List (String × α) :=
  match getA m k with
  | some v => (v, eraseA m k)
  | none => (dflt, m)

/-- Python `str.strip()`: drop whitespace from both ends.  Embedded
directly over the character list so that it evaluates inside the
kernel. -/
def strip (s : String) : String :=
  String.mk
    (((s.data.dropWhile Char.isWhitespace).reverse.dropWhile
        Char.isWhitespace).reverse)

/-- Left-biased choice on options, used to state lookup precedence. -/
def firstSome {α : Type} : Option α → Option α → Option α
  | some v, _ => some v
  | none, b => b

theorem firstSome_none {α : Type} (b : Option α) : firstSome none b = b := rfl

theorem firstSome_some {α : Type} (v : α) (b : Option α) :
    firstSome (some v) b = some v := rfl

theorem getA_setA {α : Type} (m : List (String × α)) (k' k : String) (v : α) :
    getA (setA m k' v) k = if k' == k then some v else getA m k := by
  induction m with
  | nil => simp [setA, getA]
  | cons p t ih =>
    by_cases h1 : p.1 = k'
    · subst h1
      have hbr : (p.1 == p.1) = true := by simp
      simp only [setA, hbr, if_true]
      by_cases h2 : p.1 = k
      · subst h2; simp [getA]
      · have hb : (p.1 == k) = false := by simp [h2]
        simp [getA, hb]
    · have hb1 : (p.1 == k') = false := by simp [h1]
      simp only [setA, hb1, if_false]
      by_cases h2 : p.1 = k
      · subst h2
        have hne : ¬ k' = p.1 := fun he => h1 he.symm
        have hb2 : (k' == p.1) = false := by simp [hne]
        simp [getA, hb2]
      · have hb2 : (p.1 == k) = false := by simp [h2]
        simp [getA, hb2, ih]

theorem getA_append {α : Type} (l₁ l₂ : List (String × α)) (k : String) :
    getA (l₁ ++ l₂) k = firstSome (getA l₁ k) (getA l₂ k) := by
  induction l₁ with
  | nil => simp [getA, firstSome]
  | cons p t ih =>
    by_cases h : p.1 = k
    · have hb : (p.1 == k) = true := by simp [h]
      simp [getA, hb, firstSome]
    · have hb : (p.1 == k) = false := by simp [h]
      simp [getA, hb, ih]

/-- The value at `k` after `d.update(n)` is the LAST value written for
`k` in `n`, falling back to `d`'s value: later sources win. -/
theorem getA_updA {α : Type} (m n : List (String × α)) (k : String) :
    getA (updA m n) k = firstSome (getA n.reverse k) (getA m k) := by
  induction n generalizing m with
  | nil => simp [updA, getA, firstSome]
  | cons p t ih =>
    have step : updA m (p :: t) = updA (setA m p.1 p.2) t := rfl
    rw [step, ih, List.reverse_cons, getA_append]
    rw [getA_setA]
    cases hr : getA t.reverse k with
    | some v => simp [firstSome]
    | none =>
      by_cases h : p.1 = k
      · have hb : (p.1 == k) = true := by simp [h]
        simp [firstSome, getA, hb]
      · have hb : (p.1 == k) = false := by simp [h]
        simp [firstSome, getA, hb]

theorem getA_eq_none_of_not_mem {α : Type} {m : List (String × α)} {k : String}
    (h : k ∉ m.map Prod.fst) : getA m k = none := by
  induction m with
  | nil => rfl
  | cons p t ih =>
    simp only [List.map_cons, List.mem_cons] at h
    push_neg at h
    have hne : ¬ p.1 = k := fun he => h.1 he.symm
    have hb : (p.1 == k) = false := by simp [hne]
    simp [getA, hb, ih h.2]

/-- On a unique-key dictionary (as every Python `dict` is), removing a
key leaves no entry for it. -/
theorem getA_eraseA_of_nodup {α : Type} {m : List (String × α)} (k : String)
    (h : (m.map Prod.fst).Nodup) : getA (eraseA m k) k = none := by
  induction m with
  | nil => rfl
  | cons p t ih =>
    simp only [List.map_cons, List.nodup_cons] at h
    by_cases hk : p.1 = k
    · subst hk
      have hb : (p.1 == p.1) = true := by simp
      simp only [eraseA, hb, if_true]
      exact getA_eq_none_of_not_mem h.1
    · have hb : (p.1 == k) = false := by simp [hk]
      simp [eraseA, getA, hb, ih h.2]

/-- Mapping a string-valued dictionary into an option-valued attribute
list commutes with lookup. -/
theorem getA_map_some {α : Type} (l : List (String × α)) (k : String) :
    getA (l.map fun p => (p.1, some p.2)) k = (getA l k).map some := by
  induction l with
  | nil => rfl
  | cons p t ih =>
    by_cases h : p.1 = k
    · have hb : (p.1 == k) = true := by simp [h]
      simp [getA, hb]
    · have hb : (p.1 == k) = false := by simp [h]
      simp [getA, hb, ih]

/-- A key that is not of the rewritten `hx_`-form is never produced by
the behavioral-attribute rewrite. -/
theorem getA_hxmap_eq_none {α : Type} (l : List (String × α)) (k : String)
    (h : ∀ a : String, "hx_" ++ a ≠ k) :
    getA (l.map fun p => ("hx_" ++ p.1, p.2)) k = none := by
  induction l with
  | nil => rfl
  | cons p t ih =>
    have hb : (("hx_" ++ p.1 : String) == k) = false := by simp [h p.1]
    simp [getA, hb, ih]

/-- Auxiliary fact: a string starting with the character `h` never
equals a string starting with another character; used to show the
`hx_` rewrite cannot hit `cls` or `type`. -/
theorem hx_append_ne (a : String) (k : String)
    (hk : k.data.head? ≠ some 'h') : "hx_" ++ a ≠ k := by
  intro he
  apply hk
  rw [← he]
  have : ("hx_" ++ a).data = "hx_".data ++ a.data := String.data_append ..
  simp [this]

/-! ## `src/components/buttons.py` -/

/-- The `CustomButton` dataclass (`buttons.py`), with its field
defaults.  `htmx` and `additional_attrs` are Python dicts, embedded as
ordered unique-key association lists. -/
structure CustomButton where
  label : String
  style : String := "default"
  type : String := "button"
  size : String := "base"
  pill : Bool := false
  htmx : List (String × String) := []
  additional_attrs : List (String × String) := []

/-- `CustomButton._style_classes` (`buttons.py`), verbatim. -/
def style_classes : List (String × String) :=
  [("default", "text-white bg-blue-700 hover:bg-blue-800 focus:ring-4 focus:ring-blue-300 dark:bg-blue-600 dark:hover:bg-blue-700 focus:outline-none dark:focus:ring-blue-800"),
   ("alternative", "text-gray-900 focus:outline-none bg-white border border-gray-200 hover:bg-gray-100 hover:text-blue-700 focus:z-10 focus:ring-4 focus:ring-gray-100 dark:focus:ring-gray-700 dark:bg-gray-800 dark:text-gray-400 dark:border-gray-600 dark:hover:text-white dark:hover:bg-gray-700"),
   ("dark", "text-white bg-gray-800 hover:bg-gray-900 focus:outline-none focus:ring-4 focus:ring-gray-300 dark:bg-gray-800 dark:hover:bg-gray-700 dark:focus:ring-gray-700 dark:border-gray-700"),
   ("light", "text-gray-900 bg-white border border-gray-300 focus:outline-none hover:bg-gray-100 focus:ring-4 focus:ring-gray-100 dark:bg-gray-800 dark:text-white dark:border-gray-600 dark:hover:bg-gray-700 dark:hover:border-gray-600 dark:focus:ring-gray-700"),
   ("green", "focus:outline-none text-white bg-green-700 hover:bg-green-800 focus:ring-4 focus:ring-green-300 dark:bg-green-600 dark:hover:bg-green-700 dark:focus:ring-green-800"),
   ("red", "focus:outline-none text-white bg-red-700 hover:bg-red-800 focus:ring-4 focus:ring-red-300 dark:bg-red-600 dark:hover:bg-red-700 dark:focus:ring-red-900"),
   ("yellow", "focus:outline-none text-white bg-yellow-400 hover:bg-yellow-500 focus:ring-4 focus:ring-yellow-300 dark:focus:ring-yellow-900"),
   ("purple", "focus:outline-none text-white bg-purple-700 hover:bg-purple-800 focus:ring-4 focus:ring-purple-300 dark:bg-purple-600 dark:hover:bg-purple-700 dark:focus:ring-purple-900")]

/-- `CustomButton._size_classes` (`buttons.py`), verbatim. -/
def size_classes : List (String × String) :=
  [("xs", "px-3 py-2 text-xs"),
   ("sm", "px-3 py-2 text-sm"),
   ("base", "px-5 py-2.5 text-sm"),
   ("lg", "px-5 py-3 text-base"),
   ("xl", "px-6 py-3.5 text-base")]

/-- `self._style_classes.get(self.style, self._style_classes["default"])`. -/
def styleGet (s : String) : String :=
  (getA style_classes s).getD ((getA style_classes "default").getD "")

/-- `self._size_classes.get(self.size, self._size_classes["base"])`. -/
def sizeGet (s : String) : String :=
  (getA size_classes s).getD ((getA size_classes "base").getD "")

/-- The `classes` list built in `CustomButton.__call__` and joined with
a single space into the base `cls` value. -/
def CustomButton.baseCls (b : CustomButton) : String :=
  String.intercalate " "
    [styleGet b.style, sizeGet b.size, "font-medium",
     if b.pill then "rounded-full" else "rounded-lg",
     "text-center", "me-2 mb-2"]

/-- The `attrs` dict at the end of `CustomButton.__call__`: the literal
`{"type": self.type, "cls": ..., **self.additional_attrs}` followed by
the loop `attrs[f"hx_{key}"] = value` over `self.htmx`. -/
def CustomButton.callAttrs (b : CustomButton) : List (String × String) :=
  updA (updA [("type", b.type), ("cls", b.baseCls)] b.additional_attrs)
    (b.htmx.map fun p => ("hx_" ++ p.1, p.2))

/-- `CustomButton.__call__`: `Button(self.label, **attrs)`. -/
def CustomButton.call (b : CustomButton) : Node :=
  Node.elem "button" ((b.callAttrs).map fun p => (p.1, some p.2))
    [Node.text b.label]

/-! ## `src/components/floating_form.py` -/

/-- The `FormField` dataclass, with its defaults.  `pattern` is `None`
by default, hence `Option String`. -/
structure FormField where
  name : String
  label : String
  type : String := "text"
  pattern : Option String := none
  required : Bool := true
  placeholder : String := " "
  additional_attrs : List (String × String) := []
  htmx : List (String × String) := []

/-- The `FormSection` dataclass. -/
structure FormSection where
  fields : List FormField
  layout : String := "single"

/-- The `FloatingLabelForm` dataclass. -/
structure FloatingLabelForm where
  sections : List FormSection
  submit_label : String := "Submit"
  cls : String := "max-w-md mx-auto"
  htmx : List (String × String) := []
  custom_submit_button : Option CustomButton := none

/-- `default_cls` in `FloatingLabelForm.floating_input`, verbatim. -/
def floating_default_cls : String :=
  "block py-2.5 px-0 w-full text-sm text-gray-900 bg-transparent border-0 border-b-2 border-gray-300 appearance-none dark:text-white dark:border-gray-600 dark:focus:border-blue-500 focus:outline-none focus:ring-0 focus:border-blue-600 peer"

/-- The label `cls` literal in `FloatingLabelForm.floating_input`. -/
def floating_label_cls : String :=
  "peer-focus:font-medium absolute text-sm text-gray-500 dark:text-gray-400 duration-300 transform -translate-y-6 scale-75 top-3 -z-10 origin-[0] peer-focus:start-0 rtl:peer-focus:translate-x-1/4 rtl:peer-focus:left-auto peer-focus:text-blue-600 peer-focus:dark:text-blue-500 peer-placeholder-shown:scale-100 peer-placeholder-shown:translate-y-0 peer-focus:scale-75 peer-focus:-translate-y-6"

/-- The `input_attrs` dict of `floating_input` after the `cls`
assignment: the initial literal, then
`input_attrs["cls"] = f"{default_cls} {additional_cls}".strip()` where
`additional_cls = field.additional_attrs.pop("cls", "")`. -/
def floatingBaseAttrs (f : FormField) : List (String × Option String) :=
  setA
    [("type", some f.type), ("name", some f.name),
     ("id", some ("floating_" ++ f.name)),
     ("placeholder", some f.placeholder),
     ("required", if f.required then some "" else none),
     ("pattern", f.pattern)]
    "cls"
    (some (strip (floating_default_cls ++ " " ++
      (popA f.additional_attrs "cls" "").1)))

/-- The `input_attrs` dict of `floating_input` after all updates: the
base above, then `input_attrs.update` with the `hx_`-rewritten
`field.htmx`, then `input_attrs.update` with the remaining
`field.additional_attrs` (the `cls` entry was popped out). -/
def floatingInputAttrs (f : FormField) : List (String × Option String) :=
  updA
    (updA (floatingBaseAttrs f) (f.htmx.map fun p => ("hx_" ++ p.1, some p.2)))
    ((popA f.additional_attrs "cls" "").2.map fun p => (p.1, some p.2))

/-- `FloatingLabelForm.floating_input`: the rendered `Div` together
with the field as left behind by the call — `pop` removes the `cls`
entry from the field's `additional_attrs` dict, a genuine mutation of
the caller's descriptor. -/
def floating_input (f : FormField) : Node × FormField :=
  (Node.elem "div" [("cls", some "relative z-0 w-full mb-5 group")]
    [Node.elem "input" (floatingInputAttrs f) [],
     Node.elem "label"
       [("fr", some ("floating_" ++ f.name)), ("cls", some floating_label_cls)]
       [Node.text f.label],
     Node.elem "div" [("cls", some "validation-message")] []],
   { f with additional_attrs := (popA f.additional_attrs "cls" "").2 })

/-- `FloatingLabelForm.two_column_inputs`. -/
def two_column_inputs (n1 n2 : Node) : Node :=
  Node.elem "div" [("cls", some "grid md:grid-cols-2 md:gap-6")] [n1, n2]

/-- `FloatingLabelForm.render_section`.  A `double` section reads
`section.fields[0]` and `section.fields[1]`: with fewer than two
fields Python raises `IndexError` at render time and no node is
produced (modelled as `none`); any fields beyond the first two are
ignored. -/
def render_section (s : FormSection) : Option Node :=
  if s.layout == "double" then
    match s.fields with
    | f1 :: f2 :: _ =>
        some (two_column_inputs (floating_input f1).1 (floating_input f2).1)
    | _ => none
  else
    some (Node.elem "div" [] (s.fields.map fun f => (floating_input f).1))

/-- The `cls` literal of the default submit button in
`FloatingLabelForm.render_submit_button`. -/
def default_submit_cls : String :=
  "text-white bg-blue-700 hover:bg-blue-800 focus:ring-4 focus:outline-none focus:ring-blue-300 font-medium rounded-lg text-sm w-full sm:w-auto px-5 py-2.5 text-center dark:bg-blue-600 dark:hover:bg-blue-700 dark:focus:ring-blue-800"

/-- `FloatingLabelForm.render_submit_button`: with a custom button it
sets `button.type = "submit"`, runs `button.htmx.update(self.htmx)`
and calls the button; otherwise it builds the fixed default `Button`. -/
def render_submit_button (form : FloatingLabelForm) : Node :=
  match form.custom_submit_button with
  | some b =>
      CustomButton.call
        { b with type := "submit", htmx := updA b.htmx form.htmx }
  | none =>
      Node.elem "button"
        [("type", some "submit"), ("cls", some default_submit_cls)]
        [Node.text form.submit_label]

/-- The attribute list of a node (empty for a text leaf). -/
def attrsOf : Node → List (String × Option String)
  | Node.elem _ a _ => a
  | Node.text _ => []

/-- The children of a node. -/
def childrenOf : Node → List Node
  | Node.elem _ _ c => c
  | Node.text _ => []

/-! ## `src/components/navbar.py` -/

/-- The `NavMenuItem` dataclass, with its defaults. -/
structure NavMenuItem where
  text : String
  href : String
  active : Bool := false
  cls : String := ""

/-- The `NavBar` dataclass.  Each entry of `additional_buttons` is a
Python dict of `Button` kwargs. -/
structure NavBar where
  logo_src : String
  brand_name : String
  menu_items : List NavMenuItem
  cta_text : String := "Get started"
  brand_href : String := "#"
  additional_buttons : List (List (String × Option String)) := []
  cls : String := "bg-white border-gray-200 dark:bg-gray-900"
  htmx : List (String × String) := []

/-- `base_cls` in `NavBar._render_menu_item`, verbatim. -/
def nav_base_cls : String :=
  "block py-2 px-3 md:p-0 rounded hover:bg-gray-100 md:hover:bg-transparent md:hover:text-blue-700 md:dark:hover:text-blue-500 dark:text-white dark:hover:bg-gray-700 dark:hover:text-white md:dark:hover:bg-transparent dark:border-gray-700"

/-- `active_cls` in `NavBar._render_menu_item`, verbatim. -/
def nav_active_cls : String :=
  "text-white bg-blue-700 md:bg-transparent md:text-blue-700 md:dark:text-blue-500"

/-- `inactive_cls` in `NavBar._render_menu_item`, verbatim. -/
def nav_inactive_cls : String := "text-gray-900"

/-- The attribute list of the `A` element built by
`NavBar._render_menu_item`: the class is the f-string
`f"{base_cls} {active_cls if item.active else inactive_cls} {item.cls}".strip()`
and `aria_current` is `"page" if item.active else None`. -/
def menuLinkAttrs (item : NavMenuItem) : List (String × Option String) :=
  [("href", some item.href),
   ("cls", some (strip (nav_base_cls ++ " " ++
      (if item.active then nav_active_cls else nav_inactive_cls) ++ " " ++
      item.cls))),
   ("aria_current", if item.active then some "page" else none)]

/-- `NavBar._render_menu_item`. -/
def render_menu_item (item : NavMenuItem) : Node :=
  Node.elem "li" [] [Node.elem "a" (menuLinkAttrs item) [Node.text item.text]]

/-- `NavBar._render_mobile_menu_button`: a constant node, independent
of every descriptor field. -/
def render_mobile_menu_button : Node :=
  Node.elem "button"
    [("data_collapse_toggle", some "navbar-cta"),
     ("type", some "button"),
     ("cls", some "inline-flex items-center p-2 w-10 h-10 justify-center text-sm text-gray-500 rounded-lg md:hidden hover:bg-gray-100 focus:outline-none focus:ring-2 focus:ring-gray-200 dark:text-gray-400 dark:hover:bg-gray-700 dark:focus:ring-gray-600"),
     ("aria_controls", some "navbar-cta"),
     ("aria_expanded", some "false")]
    [Node.elem "span" [("cls", some "sr-only")] [Node.text "Open main menu"],
     Node.elem "svg"
       [("cls", some "w-5 h-5"), ("aria_hidden", some "true"),
        ("xmlns", some "http://www.w3.org/2000/svg"),
        ("fill", some "none"), ("viewbox", some "0 0 17 14")]
       [Node.elem "path"
         [("stroke", some "currentColor"), ("stroke_linecap", some "round"),
          ("stroke_linejoin", some "round"), ("stroke_width", some "2"),
          ("d", some "M1 1h15M1 7h15M1 13h15")] []]]

/-- `NavBar._render_buttons`: the call-to-action button, then the
additional buttons in descriptor order, then the mobile-menu toggle. -/
def render_buttons (nb : NavBar) : Node :=
  Node.elem "div"
    [("cls", some "flex md:order-2 space-x-3 md:space-x-0 rtl:space-x-reverse")]
    ((Node.elem "button"
        [("type", some "button"),
         ("cls", some "text-white bg-blue-700 hover:bg-blue-800 focus:ring-4 focus:outline-none focus:ring-blue-300 font-medium rounded-lg text-sm px-4 py-2 text-center dark:bg-blue-600 dark:hover:bg-blue-700 dark:focus:ring-blue-800")]
        [Node.text nb.cta_text] ::
      nb.additional_buttons.map fun btn => Node.elem "button" btn []) ++
     [render_mobile_menu_button])

/-- `NavBar._render_menu`: the menu container `Div` with the literal
identifier `navbar-cta`. -/
def render_menu (nb : NavBar) : Node :=
  Node.elem "div"
    [("cls", some "items-center justify-between hidden w-full md:flex md:w-auto md:order-1"),
     ("id", some "navbar-cta")]
    [Node.elem "ul"
      [("cls", some "flex flex-col font-medium p-4 md:p-0 mt-4 border border-gray-100 rounded-lg bg-gray-50 md:space-x-8 rtl:space-x-reverse md:flex-row md:mt-0 md:border-0 md:bg-white dark:bg-gray-800 md:dark:bg-gray-900 dark:border-gray-700")]
      (nb.menu_items.map render_menu_item)]

/-! ## `src/components/accordion.py` -/

/-- The `AccordionItem` dataclass.  The Python default for `id` is a
fresh `accordion-<uuid>` string; the embedding keeps `id` as a plain
field (the claims below are about explicitly supplied identifiers). -/
structure AccordionItem where
  title : String
  content : List String
  id : String

/-- The `Accordion` dataclass. -/
structure Accordion where
  items : List AccordionItem

/-- The toggle `Button` inside the `H2` of `AccordionItem.__xt__`. -/
def accordion_toggle_button (it : AccordionItem) : Node :=
  Node.elem "button"
    [("type", some "button"),
     ("cls", some "flex items-center justify-between w-full p-5 font-medium rtl:text-right text-gray-500 border border-b-0 border-gray-200 rounded-t-xl focus:ring-4 focus:ring-gray-200 dark:focus:ring-gray-800 dark:border-gray-700 dark:text-gray-400 hover:bg-gray-100 dark:hover:bg-gray-800 gap-3"),
     ("data_accordion_target", some ("#" ++ it.id ++ "-body")),
     ("aria_expanded", some "false"),
     ("aria_controls", some (it.id ++ "-body"))]
    [Node.elem "span" [] [Node.text it.title],
     Node.elem "svg"
       [("data_accordion_icon", some ""),
        ("cls", some "w-3 h-3 rotate-180 shrink-0"),
        ("aria_hidden", some "true"),
        ("xmlns", some "http://www.w3.org/2000/svg"),
        ("fill", some "none"), ("viewbox", some "0 0 10 6")]
       [Node.elem "path"
         [("stroke", some "currentColor"), ("stroke_linecap", some "round"),
          ("stroke_linejoin", some "round"), ("stroke_width", some "2"),
          ("d", some "M9 5 5 1 1 5")] []]]

/-- The `H2` header of `AccordionItem.__xt__`. -/
def accordion_header (it : AccordionItem) : Node :=
  Node.elem "h2" [("id", some (it.id ++ "-heading"))]
    [accordion_toggle_button it]

/-- The body `Div` of `AccordionItem.__xt__`: hidden by default,
labelled by the heading. -/
def accordion_body (it : AccordionItem) : Node :=
  Node.elem "div"
    [("id", some (it.id ++ "-body")), ("cls", some "hidden"),
     ("aria_labelledby", some (it.id ++ "-heading"))]
    [Node.elem "div"
      [("cls", some "p-5 border border-b-0 border-gray-200 dark:border-gray-700 dark:bg-gray-900")]
      (it.content.map fun s =>
        Node.elem "p" [("cls", some "mb-2 text-gray-500 dark:text-gray-400")]
          [Node.text s])]

/-- `AccordionItem.__xt__` returns the `(H2, Div)` pair. -/
def accordion_item_render (it : AccordionItem) : List Node :=
  [accordion_header it, accordion_body it]

/-- `Accordion.__xt__`: no validation of any kind, every item is
rendered in order inside the outer `Div`. -/
def accordion_render (a : Accordion) : Node :=
  Node.elem "div"
    [("id", some "accordion-collapse"), ("data_accordion", some "collapse")]
    ((a.items.map accordion_item_render).flatten)

mutual

/-- All element-identifier attribute values occurring in a tree, in
document order (the element's own `id`, then its children's). -/
def allIds : Node → List String
  | Node.text _ => []
  | Node.elem _ attrs children =>
      (match getA attrs "id" with
       | some (some v) => [v]
       | _ => []) ++ allIdsList children

/-- `allIds` over a list of sibling nodes. -/
def allIdsList : List Node → List String
  | [] => []
  | n :: t => allIds n ++ allIdsList t

end

/-! ## Helper lemmas -/

theorem getA_eq_none_iff {α : Type} (m : List (String × α)) (k : String) :
    getA m k = none ↔ k ∉ m.map Prod.fst := by
  constructor
  · intro h hmem
    induction m with
    | nil => simp at hmem
    | cons p t ih =>
      by_cases he : p.1 = k
      · have hb : (p.1 == k) = true := by simp [he]
        simp [getA, hb] at h
      · have hb : (p.1 == k) = false := by simp [he]
        simp only [getA, hb, if_neg, Bool.false_eq_true, if_false] at h
        simp only [List.map_cons, List.mem_cons] at hmem
        rcases hmem with hmem | hmem
        · exact he hmem.symm
        · exact ih h hmem
  · exact getA_eq_none_of_not_mem

theorem getA_mem_values {α : Type} {m : List (String × α)} {k : String} {v : α}
    (h : getA m k = some v) : v ∈ m.map Prod.snd := by
  induction m with
  | nil => simp [getA] at h
  | cons p t ih =>
    by_cases he : p.1 = k
    · have hb : (p.1 == k) = true := by simp [he]
      simp only [getA, hb, if_true] at h
      simp [← Option.some_inj.mp h]
    · have hb : (p.1 == k) = false := by simp [he]
      simp only [getA, hb, Bool.false_eq_true, if_false] at h
      simp [ih h]

theorem hx_append_ne_cls (a : String) : "hx_" ++ a ≠ "cls" :=
  hx_append_ne a "cls" (by decide)

theorem hx_append_ne_type (a : String) : "hx_" ++ a ≠ "type" :=
  hx_append_ne a "type" (by decide)

/-- The `hx_` rewrite is injective on verbs. -/
theorem hx_append_right_inj (a b : String) :
    ("hx_" ++ a = "hx_" ++ b) ↔ a = b := by
  constructor
  · intro h
    have hd := congrArg String.data h
    rw [String.data_append, String.data_append] at hd
    have hc := List.append_cancel_left hd
    exact String.ext hc
  · intro h; rw [h]

/-- Looking a rewritten verb up in the rewritten behavioral dictionary
is looking the verb up in the original. -/
theorem getA_hxmap_hit {α : Type} (l : List (String × α)) (k : String) :
    getA (l.map fun p => ("hx_" ++ p.1, p.2)) ("hx_" ++ k) = getA l k := by
  induction l with
  | nil => rfl
  | cons p t ih =>
    by_cases he : p.1 = k
    · have hb : (("hx_" ++ p.1 : String) == ("hx_" ++ k)) = true := by
        simp [he]
      have hb2 : (p.1 == k) = true := by simp [he]
      simp [getA, hb, hb2]
    · have hne : ("hx_" ++ p.1 : String) ≠ "hx_" ++ k := by
        intro h; exact he ((hx_append_right_inj p.1 k).mp h)
      have hb : (("hx_" ++ p.1 : String) == ("hx_" ++ k)) = false := by
        simp [hne]
      have hb2 : (p.1 == k) = false := by simp [he]
      simp [getA, hb, hb2, ih]

/-- Lookup precedence through `CustomButton.__call__`'s `attrs` dict:
the behavioral (`hx_`) writes are last and win, then the caller
overrides, then the base `type`/`cls` pair. -/
theorem getA_callAttrs (b : CustomButton) (k : String) :
    getA (CustomButton.callAttrs b) k =
      firstSome (getA ((b.htmx.map fun p => ("hx_" ++ p.1, p.2)).reverse) k)
        (firstSome (getA b.additional_attrs.reverse k)
          (getA [("type", b.type), ("cls", CustomButton.baseCls b)] k)) := by
  show getA (updA (updA _ _) _) k = _
  rw [getA_updA, getA_updA]

/-- Lookup precedence through `floating_input`'s `input_attrs` dict:
the remaining caller overrides are last and win, then the behavioral
(`hx_`) writes, then the base attributes with the concatenated `cls`. -/
theorem getA_floatingInputAttrs (f : FormField) (k : String) :
    getA (floatingInputAttrs f) k =
      firstSome
        (getA (((popA f.additional_attrs "cls" "").2.map
          fun p => (p.1, some p.2)).reverse) k)
        (firstSome
          (getA ((f.htmx.map fun p => ("hx_" ++ p.1, some p.2)).reverse) k)
          (getA (floatingBaseAttrs f) k)) := by
  show getA (updA (updA _ _) _) k = _
  rw [getA_updA, getA_updA]

theorem firstSome_none_right {α : Type} (a : Option α) :
    firstSome a none = a := by
  cases a <;> rfl

theorem mem_keys_setA {α : Type} (m : List (String × α)) (k a : String) (v : α) :
    a ∈ (setA m k v).map Prod.fst ↔ a ∈ m.map Prod.fst ∨ a = k := by
  induction m with
  | nil => simp [setA]
  | cons p t ih =>
    by_cases h : p.1 = k
    · have hb : (p.1 == k) = true := by simp [h]
      simp only [setA, hb, if_true, List.map_cons, List.mem_cons]
      rw [h]
      tauto
    · have hb : (p.1 == k) = false := by simp [h]
      simp only [setA, hb, Bool.false_eq_true, if_false, List.map_cons,
        List.mem_cons, ih]
      tauto

/-- Python `dict` assignment keeps keys unique. -/
theorem nodup_keys_setA {α : Type} {m : List (String × α)} (k : String) (v : α)
    (h : (m.map Prod.fst).Nodup) : ((setA m k v).map Prod.fst).Nodup := by
  induction m with
  | nil => simp [setA]
  | cons p t ih =>
    simp only [List.map_cons, List.nodup_cons] at h
    by_cases he : p.1 = k
    · have hb : (p.1 == k) = true := by simp [he]
      simp only [setA, hb, if_true, List.map_cons, List.nodup_cons]
      exact ⟨he ▸ h.1, h.2⟩
    · have hb : (p.1 == k) = false := by simp [he]
      simp only [setA, hb, Bool.false_eq_true, if_false, List.map_cons,
        List.nodup_cons]
      refine ⟨?_, ih h.2⟩
      rw [mem_keys_setA]
      rintro (hm | rfl)
      · exact h.1 hm
      · exact he rfl

/-- Python `dict.update` keeps keys unique. -/
theorem nodup_keys_updA {α : Type} {m : List (String × α)}
    (n : List (String × α)) (h : (m.map Prod.fst).Nodup) :
    ((updA m n).map Prod.fst).Nodup := by
  induction n generalizing m with
  | nil => exact h
  | cons p t ih => exact ih (nodup_keys_setA p.1 p.2 h)

/-- On a unique-key dictionary, lookup does not depend on entry
order. -/
theorem getA_reverse_of_nodup {α : Type} {m : List (String × α)} (k : String)
    (h : (m.map Prod.fst).Nodup) : getA m.reverse k = getA m k := by
  induction m with
  | nil => rfl
  | cons p t ih =>
    simp only [List.map_cons, List.nodup_cons] at h
    rw [List.reverse_cons, getA_append]
    by_cases he : p.1 = k
    · have hb : (p.1 == k) = true := by simp [he]
      have hnone : getA t k = none := by
        rw [getA_eq_none_iff]
        exact he ▸ h.1
      have hnoner : getA t.reverse k = none := by
        rw [ih h.2]; exact hnone
      simp [hnoner, firstSome_none, getA, hb]
    · have hb : (p.1 == k) = false := by simp [he]
      rw [ih h.2]
      show firstSome (getA t k) (getA [p] k) = _
      simp [getA, hb, firstSome_none_right]

/-- The key order produced by a sequence of Python `dict` assignments:
each key keeps its existing position when already present and is
appended at the end when fresh. -/
def updKeys (km : List String) (kn : List String) : List String :=
  kn.foldl (fun acc k => if k ∈ acc then acc else acc ++ [k]) km

/-- `d[k] = v` keeps the key list unchanged when `k` is present and
appends `k` at the end otherwise. -/
theorem keys_setA {α : Type} (m : List (String × α)) (k : String) (v : α) :
    (setA m k v).map Prod.fst =
      if k ∈ m.map Prod.fst then m.map Prod.fst
      else m.map Prod.fst ++ [k] := by
  induction m with
  | nil => simp [setA]
  | cons p t ih =>
    by_cases h : p.1 = k
    · have hb : (p.1 == k) = true := by simp [h]
      simp only [setA, hb, if_true, List.map_cons]
      rw [h, if_pos (List.mem_cons_self k (t.map Prod.fst))]
    · have hb : (p.1 == k) = false := by simp [h]
      simp only [setA, hb, Bool.false_eq_true, if_false, List.map_cons, ih]
      by_cases hm : k ∈ t.map Prod.fst
      · have hm2 : k ∈ (p :: t).map Prod.fst := by simp [hm]
        simp only [List.map_cons] at hm2
        rw [if_pos hm, if_pos hm2]
      · have hm2 : k ∉ p.1 :: t.map Prod.fst := by
          simp only [List.mem_cons, not_or]
          exact ⟨fun he => h he.symm, hm⟩
        rw [if_neg hm, if_neg hm2]
        rfl

/-- The key order of `d.update(n)` is `updKeys` of the two key
lists: existing keys keep their position, fresh keys of `n` are
appended in `n`'s order. -/
theorem keys_updA {α : Type} (m n : List (String × α)) :
    (updA m n).map Prod.fst = updKeys (m.map Prod.fst) (n.map Prod.fst) := by
  induction n generalizing m with
  | nil => rfl
  | cons p t ih =>
    show (updA (setA m p.1 p.2) t).map Prod.fst = _
    rw [ih, keys_setA]
    rfl

/-- Fresh, pairwise-distinct keys are appended in order. -/
theorem updKeys_of_fresh (km kn : List String) (hnd : kn.Nodup)
    (hfresh : ∀ k ∈ kn, k ∉ km) : updKeys km kn = km ++ kn := by
  induction kn generalizing km with
  | nil => simp [updKeys]
  | cons k t ih =>
    simp only [List.nodup_cons] at hnd
    have hk : k ∉ km := hfresh k (List.mem_cons_self k t)
    show updKeys (if k ∈ km then km else km ++ [k]) t = km ++ (k :: t)
    rw [if_neg hk]
    rw [ih (km ++ [k]) hnd.2 ?fresh]
    · simp
    case fresh =>
      intro a ha
      simp only [List.mem_append, List.mem_singleton, not_or]
      exact ⟨hfresh a (List.mem_cons_of_mem k ha),
        fun h2 => hnd.1 (h2 ▸ ha)⟩

theorem keys_eraseA_sublist {α : Type} (m : List (String × α)) (k : String) :
    ((eraseA m k).map Prod.fst).Sublist (m.map Prod.fst) := by
  induction m with
  | nil => simp [eraseA]
  | cons p t ih =>
    by_cases h : p.1 = k
    · have hb : (p.1 == k) = true := by simp [h]
      simp only [eraseA, hb, if_true, List.map_cons]
      exact List.sublist_cons_self _ _
    · have hb : (p.1 == k) = false := by simp [h]
      simp only [eraseA, hb, Bool.false_eq_true, if_false, List.map_cons]
      exact List.Sublist.cons₂ _ ih

/-- `d.pop(k, dflt)` keeps the remaining keys unique. -/
theorem popA_keys_nodup {α : Type} {m : List (String × α)} (k : String)
    (d : α) (h : (m.map Prod.fst).Nodup) :
    ((popA m k d).2.map Prod.fst).Nodup := by
  rcases hg : getA m k with _ | v
  · have he : (popA m k d).2 = m := by simp [popA, hg]
    rw [he]; exact h
  · have he : (popA m k d).2 = eraseA m k := by simp [popA, hg]
    rw [he]
    exact List.Nodup.sublist (keys_eraseA_sublist m k) h

/-- The `hx_` rewrite keeps behavioral keys pairwise distinct. -/
theorem nodup_hx_keys {α : Type} {l : List (String × α)}
    (h : (l.map Prod.fst).Nodup) :
    (l.map fun p => "hx_" ++ p.1).Nodup := by
  have he : (l.map fun p => "hx_" ++ p.1) =
      (l.map Prod.fst).map (fun a => "hx_" ++ a) := by
    rw [List.map_map]
    rfl
  rw [he]
  exact List.Nodup.map (fun a b hab => (hx_append_right_inj a b).mp hab) h

/-- No rewritten behavioral key collides with the base keys of
`floating_input`'s `input_attrs`. -/
theorem hx_not_mem_floating_base (a : String) :
    "hx_" ++ a ∉
      ["type", "name", "id", "placeholder", "required", "pattern", "cls"] := by
  intro hmem
  simp only [List.mem_cons, List.not_mem_nil, or_false] at hmem
  rcases hmem with h | h | h | h | h | h | h
  · exact hx_append_ne a "type" (by decide) h
  · exact hx_append_ne a "name" (by decide) h
  · exact hx_append_ne a "id" (by decide) h
  · exact hx_append_ne a "placeholder" (by decide) h
  · exact hx_append_ne a "required" (by decide) h
  · exact hx_append_ne a "pattern" (by decide) h
  · exact hx_append_ne a "cls" (by decide) h

theorem allIdsList_append (l₁ l₂ : List Node) :
    allIdsList (l₁ ++ l₂) = allIdsList l₁ ++ allIdsList l₂ := by
  induction l₁ with
  | nil => rfl
  | cons n t ih => simp [allIdsList, ih]

theorem allIdsList_paragraphs (cs : List String) :
    allIdsList (cs.map fun s =>
      Node.elem "p" [("cls", some "mb-2 text-gray-500 dark:text-gray-400")]
        [Node.text s]) = [] := by
  induction cs with
  | nil => rfl
  | cons c t ih => simp [allIdsList, allIds, getA, ih]

/-- The identifiers contributed by one rendered accordion item: its
heading and its body, nothing else. -/
theorem allIdsList_accordion_item (it : AccordionItem) :
    allIdsList (accordion_item_render it) =
      [it.id ++ "-heading", it.id ++ "-body"] := by
  simp [accordion_item_render, allIdsList, allIds, accordion_header,
    accordion_body, accordion_toggle_button, getA, allIdsList_paragraphs]

/-! ## Claims -/

/-- Claim C9: style-variant and size resolution are total with no
error path: every input string yields a non-empty class string, an
unrecognized variant resolves to the `default` variant's class and an
unrecognized size to the `base` size's class. -/
theorem resolve_style_size_total (s z : String) :
    styleGet s ≠ "" ∧ sizeGet z ≠ "" ∧
    (getA style_classes s = none → styleGet s = styleGet "default") ∧
    (getA size_classes z = none → sizeGet z = sizeGet "base") := by
  have hstyle : ∀ v ∈ style_classes.map Prod.snd, v ≠ "" := by decide
  have hsize : ∀ v ∈ size_classes.map Prod.snd, v ≠ "" := by decide
  refine ⟨?_, ?_, ?_, ?_⟩
  · cases h : getA style_classes s with
    | some v =>
      have he : styleGet s = v := by simp [styleGet, h]
      rw [he]; exact hstyle v (getA_mem_values h)
    | none => simp [styleGet, h]; decide
  · cases h : getA size_classes z with
    | some v =>
      have he : sizeGet z = v := by simp [sizeGet, h]
      rw [he]; exact hsize v (getA_mem_values h)
    | none => simp [sizeGet, h]; decide
  · intro h; simp [styleGet, h]; rfl
  · intro h; simp [sizeGet, h]; rfl

/-- Witness for C9 at the unrecognized keys `"zzz"` and `"yyy"`. -/
theorem resolve_style_size_total_witness :
    styleGet "zzz" = styleGet "default" ∧ sizeGet "yyy" = sizeGet "base" :=
  ⟨(resolve_style_size_total "zzz" "yyy").2.2.1 rfl,
   (resolve_style_size_total "zzz" "yyy").2.2.2 rfl⟩

/-- Claim C10: for every NavBar descriptor, the mobile-menu toggle's
`aria-controls` and collapse-toggle attributes and the menu container's
identifier are all the fixed literal `navbar-cta`, independent of every
descriptor field; the toggle is rendered inside the button cluster of
every NavBar. -/
theorem navbar_fixed_cta_identifier (nb : NavBar) :
    getA (attrsOf render_mobile_menu_button) "data_collapse_toggle" =
      some (some "navbar-cta") ∧
    getA (attrsOf render_mobile_menu_button) "aria_controls" =
      some (some "navbar-cta") ∧
    getA (attrsOf (render_menu nb)) "id" = some (some "navbar-cta") ∧
    (childrenOf (render_buttons nb)).getLast? = some render_mobile_menu_button := by
  refine ⟨rfl, rfl, rfl, ?_⟩
  show ((_ :: _) ++ [render_mobile_menu_button]).getLast? = _
  exact List.getLast?_concat _

/-- Claim C8: every accordion item renders a header whose toggle
references the body identifier `<id>-body` through both the
control-target attribute (as the selector `#<id>-body`) and
`aria-controls`, starts with `aria-expanded="false"`, and a body with
identifier `<id>-body` that is hidden by default and labelled by the
header identifier `<id>-heading`. -/
theorem accordion_item_collapsed_linkage (it : AccordionItem) :
    getA (attrsOf (accordion_header it)) "id" =
      some (some (it.id ++ "-heading")) ∧
    (∃ v, getA (attrsOf (accordion_toggle_button it)) "data_accordion_target" =
        some (some v) ∧
      (v = it.id ++ "-body" ∨ v = "#" ++ (it.id ++ "-body"))) ∧
    getA (attrsOf (accordion_toggle_button it)) "aria_controls" =
      some (some (it.id ++ "-body")) ∧
    getA (attrsOf (accordion_toggle_button it)) "aria_expanded" =
      some (some "false") ∧
    getA (attrsOf (accordion_body it)) "id" = some (some (it.id ++ "-body")) ∧
    getA (attrsOf (accordion_body it)) "cls" = some (some "hidden") ∧
    getA (attrsOf (accordion_body it)) "aria_labelledby" =
      some (some (it.id ++ "-heading")) := by
  refine ⟨rfl, ⟨"#" ++ it.id ++ "-body", rfl, Or.inr ?_⟩, rfl, rfl, rfl, rfl, rfl⟩
  rw [String.append_assoc]

/-- Claim C6: a rendered menu entry's class is the fixed base class,
then exactly the variant class selected by the active flag, then the
entry's extra class, space-joined and stripped; `aria-current` carries
the page marker exactly when the entry is active and is `None`
(omitted by the renderer) otherwise. -/
theorem nav_menu_item_class_and_aria (item : NavMenuItem) :
    (item.active = true →
       getA (menuLinkAttrs item) "cls" =
         some (some (strip (nav_base_cls ++ " " ++ nav_active_cls ++ " " ++
           item.cls))) ∧
       getA (menuLinkAttrs item) "aria_current" = some (some "page")) ∧
    (item.active = false →
       getA (menuLinkAttrs item) "cls" =
         some (some (strip (nav_base_cls ++ " " ++ nav_inactive_cls ++ " " ++
           item.cls))) ∧
       getA (menuLinkAttrs item) "aria_current" = some none) ∧
    ((∃ v, getA (menuLinkAttrs item) "aria_current" = some (some v)) ↔
       item.active = true) := by
  by_cases hact : item.active = true
  · refine ⟨fun _ => ⟨?_, ?_⟩, fun hf => absurd hact (by simp [hf]), ?_⟩
    · simp [menuLinkAttrs, getA, hact]
    · simp [menuLinkAttrs, getA, hact]
    · constructor
      · intro _; exact hact
      · intro _; exact ⟨"page", by simp [menuLinkAttrs, getA, hact]⟩
  · have hfa : item.active = false := by simpa using hact
    refine ⟨fun ht => absurd ht hact, fun _ => ⟨?_, ?_⟩, ?_⟩
    · simp [menuLinkAttrs, getA, hfa]
    · simp [menuLinkAttrs, getA, hfa]
    · constructor
      · rintro ⟨v, hv⟩
        simp [menuLinkAttrs, getA, hfa] at hv
      · intro h; exact absurd h hact

/-- Witness for C6 at an active and an inactive concrete entry. -/
theorem nav_menu_item_class_and_aria_witness :
    getA (menuLinkAttrs ⟨"Home", "#", true, ""⟩) "aria_current" =
      some (some "page") ∧
    getA (menuLinkAttrs ⟨"About", "#about", false, ""⟩) "aria_current" =
      some none :=
  ⟨((nav_menu_item_class_and_aria ⟨"Home", "#", true, ""⟩).1 rfl).2,
   ((nav_menu_item_class_and_aria ⟨"About", "#about", false, ""⟩).2.1 rfl).2⟩

/-- Counterexample to claim C1: in `CustomButton.__call__` the
behavioral attributes are written AFTER the overrides, so the override
entry `hx_post = "A"`, which collides with the rewritten behavioral
key of `post = "B"` and is not the visual-class key, does NOT
determine the final value — the behavioral value `"B"` does. -/
theorem merge_overrides_last_counterexample :
    getA (CustomButton.callAttrs
      { label := "x", htmx := [("post", "B")],
        additional_attrs := [("hx_post", "A")] }) "hx_post" = some "B" ∧
    (some "B" : Option String) ≠ some "A" :=
  ⟨rfl, by decide⟩

/-- Claim C1 (amended): the two merge sites order their passes
differently.  In `floating_input` the passes are base (with the
concatenated `cls`), then behavioral under the `hx_` rewrite, then
overrides last, so an override wins every non-`cls` collision; in
`CustomButton.__call__` the passes are base, then overrides, then
behavioral last, so a rewritten behavioral key overwrites a colliding
override.  Insertion order follows the same per-site pass order:
every pass keeps an already-present key at its existing position and
appends fresh keys in pass order (`updKeys`), so non-colliding keys
appear as base, then overrides, then behavioral in
`CustomButton.__call__`, and as base, then behavioral, then overrides
in `floating_input`. -/
theorem merge_precedence :
    (∀ (b : CustomButton) (k : String),
      getA (CustomButton.callAttrs b) k =
        firstSome (getA ((b.htmx.map fun p => ("hx_" ++ p.1, p.2)).reverse) k)
          (firstSome (getA b.additional_attrs.reverse k)
            (getA [("type", b.type), ("cls", CustomButton.baseCls b)] k))) ∧
    (∀ (f : FormField) (k : String),
      getA (floatingInputAttrs f) k =
        firstSome
          (getA (((popA f.additional_attrs "cls" "").2.map
            fun p => (p.1, some p.2)).reverse) k)
          (firstSome
            (getA ((f.htmx.map fun p => ("hx_" ++ p.1, some p.2)).reverse) k)
            (getA (floatingBaseAttrs f) k))) ∧
    (∀ (b : CustomButton),
      (CustomButton.callAttrs b).map Prod.fst =
        updKeys (updKeys ["type", "cls"] (b.additional_attrs.map Prod.fst))
          (b.htmx.map fun p => "hx_" ++ p.1)) ∧
    (∀ (f : FormField),
      (floatingInputAttrs f).map Prod.fst =
        updKeys (updKeys
            ["type", "name", "id", "placeholder", "required", "pattern", "cls"]
            (f.htmx.map fun p => "hx_" ++ p.1))
          ((popA f.additional_attrs "cls" "").2.map Prod.fst)) ∧
    (∀ (b : CustomButton),
      (b.additional_attrs.map Prod.fst).Nodup →
      (b.htmx.map Prod.fst).Nodup →
      (∀ k ∈ b.additional_attrs.map Prod.fst, k ≠ "type" ∧ k ≠ "cls") →
      (∀ p ∈ b.htmx, "hx_" ++ p.1 ∉ b.additional_attrs.map Prod.fst) →
      (CustomButton.callAttrs b).map Prod.fst =
        ["type", "cls"] ++ b.additional_attrs.map Prod.fst ++
          b.htmx.map fun p => "hx_" ++ p.1) ∧
    (∀ (f : FormField),
      (f.additional_attrs.map Prod.fst).Nodup →
      (f.htmx.map Prod.fst).Nodup →
      (∀ k ∈ (popA f.additional_attrs "cls" "").2.map Prod.fst,
        k ∉ ["type", "name", "id", "placeholder", "required", "pattern",
          "cls"] ∧
        k ∉ f.htmx.map fun p => "hx_" ++ p.1) →
      (floatingInputAttrs f).map Prod.fst =
        ["type", "name", "id", "placeholder", "required", "pattern", "cls"] ++
          (f.htmx.map fun p => "hx_" ++ p.1) ++
          (popA f.additional_attrs "cls" "").2.map Prod.fst) := by
  refine ⟨getA_callAttrs, getA_floatingInputAttrs, ?_, ?_, ?_, ?_⟩
  · intro b
    show (updA (updA [("type", b.type), ("cls", CustomButton.baseCls b)]
      b.additional_attrs) (b.htmx.map fun p => ("hx_" ++ p.1, p.2))).map
        Prod.fst = _
    rw [keys_updA, keys_updA]
    have h2 : ((b.htmx.map fun p => ("hx_" ++ p.1, p.2)).map Prod.fst) =
        b.htmx.map fun p => "hx_" ++ p.1 := by
      rw [List.map_map]; rfl
    rw [h2]
    rfl
  · intro f
    show (updA (updA (floatingBaseAttrs f)
      (f.htmx.map fun p => ("hx_" ++ p.1, some p.2)))
      ((popA f.additional_attrs "cls" "").2.map
        fun p => (p.1, some p.2))).map Prod.fst = _
    rw [keys_updA, keys_updA]
    have h2 : ((f.htmx.map fun p => ("hx_" ++ p.1, some p.2)).map Prod.fst) =
        f.htmx.map fun p => "hx_" ++ p.1 := by
      rw [List.map_map]; rfl
    have h3 : (((popA f.additional_attrs "cls" "").2.map
        fun p => (p.1, some p.2)).map Prod.fst) =
        (popA f.additional_attrs "cls" "").2.map Prod.fst := by
      rw [List.map_map]; rfl
    rw [h2, h3]
    rfl
  · intro b hadd hhx hbase hfresh
    show (updA (updA [("type", b.type), ("cls", CustomButton.baseCls b)]
      b.additional_attrs) (b.htmx.map fun p => ("hx_" ++ p.1, p.2))).map
        Prod.fst = _
    rw [keys_updA, keys_updA]
    have h1 : updKeys (List.map Prod.fst
        [("type", b.type), ("cls", CustomButton.baseCls b)])
        (b.additional_attrs.map Prod.fst) =
        ["type", "cls"] ++ b.additional_attrs.map Prod.fst := by
      refine updKeys_of_fresh _ _ hadd ?_
      intro a ha
      rcases hbase a ha with ⟨h1, h2⟩
      simp [h1, h2]
    have h2 : ((b.htmx.map fun p => ("hx_" ++ p.1, p.2)).map Prod.fst) =
        b.htmx.map fun p => "hx_" ++ p.1 := by
      rw [List.map_map]; rfl
    rw [h2, h1]
    rw [updKeys_of_fresh _ _ (nodup_hx_keys hhx) ?_, List.append_assoc]
    intro a ha
    rcases List.mem_map.mp ha with ⟨p, hp, rfl⟩
    simp only [List.mem_append, List.mem_cons, List.not_mem_nil, or_false,
      not_or]
    exact ⟨⟨hx_append_ne p.1 "type" (by decide),
      hx_append_ne p.1 "cls" (by decide)⟩, hfresh p hp⟩
  · intro f hadd hhx hfresh
    show (updA (updA (floatingBaseAttrs f)
      (f.htmx.map fun p => ("hx_" ++ p.1, some p.2)))
      ((popA f.additional_attrs "cls" "").2.map
        fun p => (p.1, some p.2))).map Prod.fst = _
    rw [keys_updA, keys_updA]
    have hb : (floatingBaseAttrs f).map Prod.fst =
        ["type", "name", "id", "placeholder", "required", "pattern", "cls"] :=
      rfl
    have h2 : ((f.htmx.map fun p => ("hx_" ++ p.1, some p.2)).map Prod.fst) =
        f.htmx.map fun p => "hx_" ++ p.1 := by
      rw [List.map_map]; rfl
    have h3 : (((popA f.additional_attrs "cls" "").2.map
        fun p => (p.1, some p.2)).map Prod.fst) =
        (popA f.additional_attrs "cls" "").2.map Prod.fst := by
      rw [List.map_map]; rfl
    rw [hb, h2, h3]
    have h1 : updKeys
        ["type", "name", "id", "placeholder", "required", "pattern", "cls"]
        (f.htmx.map fun p => "hx_" ++ p.1) =
        ["type", "name", "id", "placeholder", "required", "pattern", "cls"] ++
          f.htmx.map fun p => "hx_" ++ p.1 := by
      refine updKeys_of_fresh _ _ (nodup_hx_keys hhx) ?_
      intro a ha
      rcases List.mem_map.mp ha with ⟨p, hp, rfl⟩
      exact hx_not_mem_floating_base p.1
    rw [h1]
    rw [updKeys_of_fresh _ _ (popA_keys_nodup "cls" "" hadd) ?_,
      List.append_assoc]
    intro a ha
    rcases hfresh a ha with ⟨h4, h5⟩
    simp only [List.mem_append, not_or]
    exact ⟨h4, h5⟩

/-- Witness for C1's insertion-order clauses at concrete non-colliding
inputs: the button's keys come out as base, overrides, behavioral and
the field's as base, behavioral, overrides. -/
theorem merge_precedence_witness :
    (CustomButton.callAttrs
      { label := "x", htmx := [("get", "/g")],
        additional_attrs := [("data-custom", "v")] }).map Prod.fst =
      ["type", "cls"] ++ ["data-custom"] ++ ["hx_get"] ∧
    (floatingInputAttrs
      { name := "u", label := "U", htmx := [("post", "/p")],
        additional_attrs := [("autocomplete", "off")] }).map Prod.fst =
      ["type", "name", "id", "placeholder", "required", "pattern", "cls"] ++
        ["hx_post"] ++ ["autocomplete"] :=
  ⟨(merge_precedence.2.2.2.2.1
      { label := "x", htmx := [("get", "/g")],
        additional_attrs := [("data-custom", "v")] }
      (by decide) (by decide) (by decide) (by decide)).trans (by decide),
   (merge_precedence.2.2.2.2.2
      { name := "u", label := "U", htmx := [("post", "/p")],
        additional_attrs := [("autocomplete", "off")] }
      (by decide) (by decide) (by decide)).trans (by decide)⟩

/-- The end-to-end scenario-A button: variant `green`, size `lg`,
pill, behavioral `post = /x`, override `cls = extra`. -/
def scenarioAButton : CustomButton :=
  { label := "B", style := "green", size := "lg", pill := true,
    htmx := [("post", "/x")], additional_attrs := [("cls", "extra")] }

/-- Counterexample to claim C2: on the scenario-A button the override
`cls` REPLACES the generated base class string instead of being
concatenated after it. -/
theorem button_cls_replacement_counterexample :
    getA (CustomButton.callAttrs scenarioAButton) "cls" = some "extra" ∧
    (some "extra" : Option String) ≠
      some (CustomButton.baseCls scenarioAButton ++ " extra") :=
  ⟨rfl, by decide⟩

/-- Claim C2 (amended): base-then-override visual-class concatenation
holds only for form fields: `floating_input` renders
`strip(default_cls ++ " " ++ override_cls)`.  For `CustomButton`
(including the scenario-A button) an override `cls` replaces the
generated class string outright. -/
theorem visual_class_merge (f : FormField) (b : CustomButton) (c c' : String) :
    ((f.additional_attrs.map Prod.fst).Nodup →
      getA f.additional_attrs "cls" = some c →
      getA (floatingInputAttrs f) "cls" =
        some (some (strip (floating_default_cls ++ " " ++ c)))) ∧
    (getA b.additional_attrs.reverse "cls" = some c' →
      getA (CustomButton.callAttrs b) "cls" = some c') := by
  constructor
  · intro hnd hget
    rw [getA_floatingInputAttrs]
    have hpop1 : (popA f.additional_attrs "cls" "").1 = c := by
      simp [popA, hget]
    have hpop2 : (popA f.additional_attrs "cls" "").2 =
        eraseA f.additional_attrs "cls" := by
      simp [popA, hget]
    have herase : getA (eraseA f.additional_attrs "cls") "cls" = none :=
      getA_eraseA_of_nodup "cls" hnd
    have hrev : getA ((eraseA f.additional_attrs "cls").reverse) "cls" = none := by
      rw [getA_eq_none_iff] at herase ⊢
      rw [List.map_reverse, List.mem_reverse]
      exact herase
    have h1 : getA (((popA f.additional_attrs "cls" "").2.map
        fun p => (p.1, some p.2)).reverse) "cls" = none := by
      rw [hpop2, ← List.map_reverse, getA_map_some, hrev]
      rfl
    have h2 : getA ((f.htmx.map
        fun p => ("hx_" ++ p.1, some p.2)).reverse) "cls" = none := by
      have hcomp : (f.htmx.map fun p => ("hx_" ++ p.1, some p.2)) =
          ((f.htmx.map fun p => (p.1, some p.2)).map
            fun p => ("hx_" ++ p.1, p.2)) := by
        rw [List.map_map]
        rfl
      rw [hcomp, ← List.map_reverse]
      exact getA_hxmap_eq_none _ _ hx_append_ne_cls
    rw [h1, firstSome_none, h2, firstSome_none]
    show getA (setA _ "cls" _) "cls" = _
    rw [getA_setA]
    simp [hpop1]
  · intro hget
    rw [getA_callAttrs]
    have h1 : getA ((b.htmx.map
        fun p => ("hx_" ++ p.1, p.2)).reverse) "cls" = none := by
      rw [← List.map_reverse]
      exact getA_hxmap_eq_none _ _ hx_append_ne_cls
    rw [h1, firstSome_none, hget, firstSome_some]

/-- Witness for C2 at a concrete form field with override
`cls = extra` and at the scenario-A button. -/
theorem visual_class_merge_witness :
    getA (floatingInputAttrs
        { name := "u", label := "U", additional_attrs := [("cls", "extra")] })
      "cls" = some (some (strip (floating_default_cls ++ " " ++ "extra"))) ∧
    getA (CustomButton.callAttrs scenarioAButton) "cls" = some "extra" :=
  ⟨(visual_class_merge
      { name := "u", label := "U", additional_attrs := [("cls", "extra")] }
      scenarioAButton "extra" "extra").1 (by decide) rfl,
   (visual_class_merge
      { name := "u", label := "U", additional_attrs := [("cls", "extra")] }
      scenarioAButton "extra" "extra").2 rfl⟩

/-- Counterexample to claim C3: a `double` section with three fields
raises nothing anywhere — construction succeeds and rendering returns
a tree, silently identical to the one for the first two fields alone. -/
theorem double_layout_three_fields_counterexample :
    (render_section
      ⟨[{ name := "a", label := "A" }, { name := "b", label := "B" },
        { name := "c", label := "C" }], "double"⟩).isSome = true ∧
    render_section
      ⟨[{ name := "a", label := "A" }, { name := "b", label := "B" },
        { name := "c", label := "C" }], "double"⟩ =
    render_section
      ⟨[{ name := "a", label := "A" }, { name := "b", label := "B" }],
        "double"⟩ :=
  ⟨rfl, rfl⟩

/-- Claim C3 (amended): no construction-time validation exists.  A
`double` section with more than two fields renders silently truncated
to its first two fields; a `double` section with fewer than two fields
fails only at render time (an index error, modelled as `none`), so no
tree is produced there. -/
theorem double_layout_render_behavior :
    (∀ (f g : FormField) (rest : List FormField),
      render_section ⟨f :: g :: rest, "double"⟩ =
        render_section ⟨[f, g], "double"⟩) ∧
    (∀ (s : FormSection), s.layout = "double" → s.fields.length < 2 →
      render_section s = none) := by
  constructor
  · intro f g rest
    rfl
  · intro s hl hn
    obtain ⟨fields, layout⟩ := s
    simp only at hl
    subst hl
    match fields, hn with
    | [], _ => rfl
    | [f], _ => rfl

/-- Witness for C3: an empty and a one-field `double` section render
to no tree. -/
theorem double_layout_render_behavior_witness :
    render_section ⟨[], "double"⟩ = none ∧
    render_section ⟨[{ name := "a", label := "A" }], "double"⟩ = none :=
  ⟨double_layout_render_behavior.2 ⟨[], "double"⟩ rfl (by decide),
   double_layout_render_behavior.2 ⟨[{ name := "a", label := "A" }], "double"⟩
     rfl (by decide)⟩

/-- The concrete field used to exhibit the render mutation: its
overrides carry a visual-class value. -/
def clsOverrideField : FormField :=
  { name := "u", label := "U", additional_attrs := [("cls", "extra")] }

/-- Extract the attribute list of the input child of a rendered
floating field. -/
def renderedInputAttrs (n : Node) : List (String × Option String) :=
  match n with
  | Node.elem _ _ (c :: _) => attrsOf c
  | _ => []

/-- Counterexample to claim C4: `floating_input` pops the `cls` entry
out of the field's override dict, so rendering the same descriptor a
second time yields a structurally different tree — the input's class
attribute loses the override class. -/
theorem rerender_changes_cls_counterexample :
    (floating_input ((floating_input clsOverrideField).2)).1 ≠
      (floating_input clsOverrideField).1 ∧
    getA (renderedInputAttrs ((floating_input clsOverrideField).1)) "cls" =
      some (some (strip (floating_default_cls ++ " " ++ "extra"))) ∧
    getA (renderedInputAttrs
        ((floating_input ((floating_input clsOverrideField).2)).1)) "cls" =
      some (some (strip (floating_default_cls ++ " " ++ ""))) ∧
    strip (floating_default_cls ++ " " ++ "extra") ≠
      strip (floating_default_cls ++ " " ++ "") := by
  refine ⟨?_, by decide, by decide, by decide⟩
  intro h
  have hc := congrArg (fun n => getA (renderedInputAttrs n) "cls") h
  revert hc
  decide

/-- Claim C4 (amended): rendering is reproducible exactly when the
field's overrides carry no visual-class entry: then `floating_input`
leaves the descriptor unchanged and a second render yields the
identical tree.  With a `cls` override the first render mutates the
descriptor and the second render drops the override class. -/
theorem floating_input_pure_without_cls_override (f : FormField)
    (h : getA f.additional_attrs "cls" = none) :
    (floating_input f).2 = f ∧
    (floating_input ((floating_input f).2)).1 = (floating_input f).1 := by
  have h2 : (floating_input f).2 = f := by
    show { f with additional_attrs := (popA f.additional_attrs "cls" "").2 } = f
    simp [popA, h]
  exact ⟨h2, by rw [h2]⟩

/-- Witness for C4 at a field with no `cls` override. -/
theorem floating_input_pure_witness :
    (floating_input { name := "n", label := "L" }).2 =
      { name := "n", label := "L" } :=
  (floating_input_pure_without_cls_override { name := "n", label := "L" } rfl).1

theorem allIdsList_accordion_items (items : List AccordionItem) :
    allIdsList ((items.map accordion_item_render).flatten) =
      items.flatMap fun it => [it.id ++ "-heading", it.id ++ "-body"] := by
  induction items with
  | nil => rfl
  | cons it t ih =>
    simp only [List.map_cons, List.flatten_cons, allIdsList_append,
      allIdsList_accordion_item, List.flatMap_cons, ih]

/-- Counterexample to claim C5: an Accordion whose two items share the
explicit identifier `dup` raises nothing — a tree IS returned, and it
contains the heading and body identifiers of both items, duplicated. -/
theorem accordion_duplicate_id_counterexample :
    allIds (accordion_render
      ⟨[⟨"first", ["x"], "dup"⟩, ⟨"second", ["y"], "dup"⟩]⟩) =
      ["accordion-collapse", "dup-heading", "dup-body",
       "dup-heading", "dup-body"] ∧
    ¬ (["accordion-collapse", "dup-heading", "dup-body",
        "dup-heading", "dup-body"] : List String).Nodup :=
  ⟨rfl, by decide⟩

/-- Claim C5 (amended): `Accordion` performs no identifier validation
at all: rendering always returns a tree whose element identifiers are
exactly `accordion-collapse` followed by each item's `<id>-heading`
and `<id>-body` in item order, so two items sharing an explicit
identifier yield a tree with duplicated identifiers instead of a
`ConstructionError`. -/
theorem accordion_render_ids (a : Accordion) :
    allIds (accordion_render a) =
      "accordion-collapse" ::
        a.items.flatMap (fun it => [it.id ++ "-heading", it.id ++ "-body"]) := by
  show (match getA [("id", some "accordion-collapse"),
      ("data_accordion", some "collapse")] "id" with
    | some (some v) => [v]
    | _ => []) ++ allIdsList ((a.items.map accordion_item_render).flatten) = _
  rw [allIdsList_accordion_items]
  rfl

/-- The custom submit button used to exhibit the `type` override: its
override attributes set `type` themselves. -/
def typeOverrideForm : FloatingLabelForm :=
  { sections := [],
    custom_submit_button :=
      some { label := "Go", additional_attrs := [("type", "button")] } }

/-- Counterexample to claim C7: when the custom button's override
attributes set `type`, the override is written after the forced
`type = submit`, so the rendered control's type is NOT `submit`. -/
theorem submit_type_not_forced_counterexample :
    getA (attrsOf (render_submit_button typeOverrideForm)) "type" =
      some (some "button") ∧
    (some (some "button") : Option (Option String)) ≠ some (some "submit") :=
  ⟨rfl, by decide⟩

/-- Claim C7 (amended): a custom submit button is rendered with its
role forced to `submit` — unless its own override attributes set
`type`, which win as in every button render.  The form's behavioral
attributes are written over the button's (`dict.update`), so at every
shared verb the form's value wins, and unshared verbs fall back to the
button's, then to the button's own `hx_`-keyed overrides.  Without a
custom button the fixed default submit control is produced. -/
theorem submit_button_merge (form : FloatingLabelForm) (b : CustomButton)
    (k : String) :
    (form.custom_submit_button = some b →
      getA b.additional_attrs.reverse "type" = none →
      getA (attrsOf (render_submit_button form)) "type" =
        some (some "submit")) ∧
    (form.custom_submit_button = some b →
      (b.htmx.map Prod.fst).Nodup →
      getA (attrsOf (render_submit_button form)) ("hx_" ++ k) =
        (firstSome (firstSome (getA form.htmx.reverse k) (getA b.htmx k))
          (getA b.additional_attrs.reverse ("hx_" ++ k))).map some) ∧
    (form.custom_submit_button = none →
      render_submit_button form =
        Node.elem "button"
          [("type", some "submit"), ("cls", some default_submit_cls)]
          [Node.text form.submit_label]) := by
  refine ⟨?_, ?_, ?_⟩
  · intro hc hno
    rw [render_submit_button, hc]
    show getA ((CustomButton.callAttrs
      { b with type := "submit", htmx := updA b.htmx form.htmx }).map
        fun p => (p.1, some p.2)) "type" = _
    rw [getA_map_some, getA_callAttrs]
    dsimp only
    have h1 : getA (((updA b.htmx form.htmx).map
        fun p => ("hx_" ++ p.1, p.2)).reverse) "type" = none := by
      rw [← List.map_reverse]
      exact getA_hxmap_eq_none _ _ hx_append_ne_type
    rw [h1, firstSome_none, hno, firstSome_none]
    rfl
  · intro hc hnd
    rw [render_submit_button, hc]
    show getA ((CustomButton.callAttrs
      { b with type := "submit", htmx := updA b.htmx form.htmx }).map
        fun p => (p.1, some p.2)) ("hx_" ++ k) = _
    rw [getA_map_some, getA_callAttrs]
    dsimp only
    have h1 : getA (((updA b.htmx form.htmx).map
        fun p => ("hx_" ++ p.1, p.2)).reverse) ("hx_" ++ k) =
        firstSome (getA form.htmx.reverse k) (getA b.htmx k) := by
      rw [← List.map_reverse, getA_hxmap_hit,
        getA_reverse_of_nodup k (nodup_keys_updA form.htmx hnd), getA_updA]
    have h2 : getA [("type", "submit"),
        ("cls", CustomButton.baseCls
          { b with type := "submit", htmx := updA b.htmx form.htmx })]
        ("hx_" ++ k) = none := by
      have ht' : ¬ ("type" : String) = "hx_" ++ k :=
        fun h => hx_append_ne_type k h.symm
      have ht : (("type" : String) == "hx_" ++ k) = false := by simp [ht']
      have hcl' : ¬ ("cls" : String) = "hx_" ++ k :=
        fun h => hx_append_ne_cls k h.symm
      have hcl : (("cls" : String) == "hx_" ++ k) = false := by simp [hcl']
      simp [getA, ht, hcl]
    rw [h1, h2, firstSome_none_right]
  · intro hc
    rw [render_submit_button, hc]

/-- A custom submit button with a `post` verb shared with the form and
a `target` verb of its own. -/
def submitMergeButton : CustomButton :=
  { label := "Go", htmx := [("post", "/b"), ("target", "#t")] }

/-- A form carrying that custom button, a colliding `post` verb and a
`swap` verb of its own. -/
def submitMergeForm : FloatingLabelForm :=
  { sections := [], htmx := [("post", "/f"), ("swap", "outerHTML")],
    custom_submit_button := some submitMergeButton }

/-- Witness for C7: the forced submit type, the form winning the
shared `post` verb, the button keeping its own `target` verb, and the
fixed default control on a form without a custom button. -/
theorem submit_button_merge_witness :
    getA (attrsOf (render_submit_button submitMergeForm)) "type" =
      some (some "submit") ∧
    getA (attrsOf (render_submit_button submitMergeForm)) ("hx_" ++ "post") =
      some (some "/f") ∧
    getA (attrsOf (render_submit_button submitMergeForm)) ("hx_" ++ "target") =
      some (some "#t") ∧
    render_submit_button { sections := [] } =
      Node.elem "button"
        [("type", some "submit"), ("cls", some default_submit_cls)]
        [Node.text "Submit"] :=
  ⟨(submit_button_merge submitMergeForm submitMergeButton "post").1 rfl rfl,
   ((submit_button_merge submitMergeForm submitMergeButton "post").2.1
     rfl (by decide)).trans (by decide),
   ((submit_button_merge submitMergeForm submitMergeButton "target").2.1
     rfl (by decide)).trans (by decide),
   (submit_button_merge { sections := [] } submitMergeButton "post").2.2 rfl⟩

end Flowbite
